import Mathlib

/-!
Shallow embedding of `src/world_serialization.rs` (foxtrot): the scene
persistence layer.  Pure data transformations are translated as Lean
functions; the filesystem and the Bevy ECS query surface are passed in as
explicit function arguments; the orchestrator systems `save_world` and
`load_world` are translated as pure functions from those inputs to a list
of emitted effects (file writes, despawns, spawn requests, log reports),
following the spec's own modelling note (§9: model save/load as
`(LiveSceneSnapshot, Request) -> (Effects, Report)`).

Rust `.expect(..)` panics are modelled by the `PanicOr` result type: a
`.panicked msg` value marks a process abort, an `.ok v` value a normal
return.
-/

namespace Foxtrot

/-- Bevy `Transform` (translation, rotation quaternion, scale).  The
serializer never computes with the scalar components — they are only
cloned, defaulted and re-emitted — so the `f32` payload is modelled by an
opaque integer per component.  `Transform::default()` is the identity
transform: zero translation, identity quaternion `(0,0,0,1)`, unit scale. -/
structure Transform where
  translation : Int × Int × Int
  rotation : Int × Int × Int × Int
  scale : Int × Int × Int
deriving DecidableEq, Repr

instance : Inhabited Transform :=
  ⟨{ translation := (0, 0, 0), rotation := (0, 0, 0, 1), scale := (1, 1, 1) }⟩

/-- Modelled from the spec: `GameObject` / the spawnable-object kind carried
by `crate::spawning::SpawnTracker` (the `spawning` module is not under
`src/`).  The spec (§3) treats it as an opaque identifier that must
round-trip unchanged, so it is modelled as a bare `Nat`. -/
abbrev SceneObjectKind := Nat

/-- Modelled from the spec: `crate::spawning::SpawnEvent` (not under
`src/`), the unit of persistence and of reconstruction: kind, transform,
optional name, optional parent name (§3 `SceneObjectRecord` /
`SpawnRequest`). -/
structure SpawnEvent where
  object : SceneObjectKind
  transform : Transform
  name : Option String
  parent : Option String
deriving DecidableEq, Repr

/-- One row of the Bevy query
`Query<(&SpawnTracker, &Name, Option<&Parent>, Option<&Transform>)>`:
a tracked, named live object.  `entity` is the entity id, `parent` the
entity id held by the `Parent` back-reference (which may point at an
entity that is not itself in the query). -/
structure TrackedObject where
  entity : Nat
  object : SceneObjectKind
  name : String
  parent : Option Nat
  transform : Option Transform
deriving DecidableEq, Repr

/-- `spawn_query.get(entity).ok()`: resolve an entity id among the tracked,
named objects; `none` when the entity does not match the query. -/
def queryGet (objs : List TrackedObject) (e : Nat) : Option TrackedObject :=
  objs.find? (fun o => o.entity == e)

/-- Result of a Rust computation that may `panic!` / `.expect(..)`:
`.panicked msg` aborts the process with the given message. -/
inductive PanicOr (α : Type) where
  | panicked (msg : String)
  | ok (val : α)
deriving DecidableEq, Repr

/-! ## Scene record codec

The Rust code encodes via `ron::to_string` and decodes via `ron::from_str`
(the `ron` crate, external to this repository).  Modelled from the spec
(§4.1, §6): the exact textual syntax is an implementation choice; the
contract is that encoding is total, decoding is the structural inverse of
encoding, and decoding rejects structurally invalid, type-mismatched or
truncated text (including trailing garbage).  The model below is a concrete
executable such codec: records are flattened to a list of naturals, which
is printed as a tally string (`n` copies of `I` then `;` per natural). -/

/-- Encode an `i32`-free integer payload as two naturals (sign tag, magnitude). -/
def intEnc : Int → List Nat
  | .ofNat n => [0, n]
  | .negSucc n => [1, n]

/-- Encode a string: character count, then one natural per character. -/
def strEnc (s : String) : List Nat :=
  s.data.length :: s.data.map Char.toNat

/-- Encode an optional string: presence tag, then the payload. -/
def optStrEnc : Option String → List Nat
  | none => [0]
  | some s => 1 :: strEnc s

/-- Encode a transform: its ten scalar components in order. -/
def transformEnc (t : Transform) : List Nat :=
  intEnc t.translation.1 ++ intEnc t.translation.2.1 ++ intEnc t.translation.2.2 ++
  intEnc t.rotation.1 ++ intEnc t.rotation.2.1 ++ intEnc t.rotation.2.2.1 ++
  intEnc t.rotation.2.2.2 ++
  intEnc t.scale.1 ++ intEnc t.scale.2.1 ++ intEnc t.scale.2.2

/-- Encode one record: kind, transform, name, parent. -/
def eventEnc (e : SpawnEvent) : List Nat :=
  e.object :: (transformEnc e.transform ++ optStrEnc e.name ++ optStrEnc e.parent)

/-- Concatenate the encodings of a list of records, in order. -/
def eventsEncAux : List SpawnEvent → List Nat
  | [] => []
  | e :: es => eventEnc e ++ eventsEncAux es

/-- Encode a record sequence: record count, then the records back to back. -/
def eventsEnc (es : List SpawnEvent) : List Nat :=
  es.length :: eventsEncAux es

/-- Read one natural, threading the unconsumed tail. -/
def readNat : List Nat → Option (Nat × List Nat)
  | [] => none
  | n :: rest => some (n, rest)

/-- Read one integer (sign tag, magnitude). -/
def readInt : List Nat → Option (Int × List Nat)
  | 0 :: n :: rest => some (Int.ofNat n, rest)
  | 1 :: n :: rest => some (Int.negSucc n, rest)
  | _ => none

/-- Read exactly `k` characters. -/
def readChars : Nat → List Nat → Option (List Char × List Nat)
  | 0, l => some ([], l)
  | _ + 1, [] => none
  | k + 1, n :: rest => (readChars k rest).map (fun p => (Char.ofNat n :: p.1, p.2))

/-- Read one string: count, then its characters. -/
def readStr (l : List Nat) : Option (String × List Nat) := do
  let (len, l) ← readNat l
  let (cs, l) ← readChars len l
  pure (String.mk cs, l)

/-- Read one optional string: presence tag, then the payload. -/
def readOptStr : List Nat → Option (Option String × List Nat)
  | 0 :: rest => some (none, rest)
  | 1 :: rest => (readStr rest).map (fun p => (some p.1, p.2))
  | _ => none

/-- Read three consecutive integers. -/
def readInt3 (l : List Nat) : Option ((Int × Int × Int) × List Nat) := do
  let (a, l) ← readInt l
  let (b, l) ← readInt l
  let (c, l) ← readInt l
  pure ((a, b, c), l)

/-- Read four consecutive integers. -/
def readInt4 (l : List Nat) : Option ((Int × Int × Int × Int) × List Nat) := do
  let (a, l) ← readInt l
  let (b, l) ← readInt l
  let (c, l) ← readInt l
  let (d, l) ← readInt l
  pure ((a, b, c, d), l)

/-- Read one transform: its ten scalar components. -/
def readTransform (l : List Nat) : Option (Transform × List Nat) := do
  let (tr, l) ← readInt3 l
  let (ro, l) ← readInt4 l
  let (sc, l) ← readInt3 l
  pure ({ translation := tr, rotation := ro, scale := sc }, l)

/-- Read one record: kind, transform, name, parent. -/
def readEvent (l : List Nat) : Option (SpawnEvent × List Nat) := do
  let (k, l) ← readNat l
  let (t, l) ← readTransform l
  let (nm, l) ← readOptStr l
  let (pr, l) ← readOptStr l
  pure ({ object := k, transform := t, name := nm, parent := pr }, l)

/-- Read exactly `k` consecutive records. -/
def readEvents : Nat → List Nat → Option (List SpawnEvent × List Nat)
  | 0, l => some ([], l)
  | k + 1, l => do
    let (e, l) ← readEvent l
    let (es, l) ← readEvents k l
    pure (e :: es, l)

/-- Decode a full natural-number stream into a record sequence; trailing
data is rejected, as `ron::from_str` rejects trailing characters. -/
def decodeNats (l : List Nat) : Option (List SpawnEvent) := do
  let (n, l) ← readNat l
  let (es, l) ← readEvents n l
  match l with
  | [] => pure es
  | _ :: _ => none

/-- Print one natural as a tally: `n` copies of `I`, then `;`. -/
def natToTally (n : Nat) : String :=
  String.mk (List.replicate n 'I' ++ [';'])

/-- Print a natural-number stream as text. -/
def natsToText : List Nat → String
  | [] => ""
  | n :: ns => natToTally n ++ natsToText ns

/-- Parse one tally back to a natural, threading the unconsumed tail. -/
def parseTally : List Char → Option (Nat × List Char)
  | [] => none
  | c :: rest =>
    if c = ';' then some (0, rest)
    else if c = 'I' then (parseTally rest).map (fun p => (p.1 + 1, p.2))
    else none

/-- Parse a whole text into a natural-number stream (fuelled; one tally
consumes at least one character, so fuel = character count suffices). -/
def parseNats : Nat → List Char → Option (List Nat)
  | _, [] => some []
  | 0, _ :: _ => none
  | fuel + 1, c :: rest =>
    match parseTally (c :: rest) with
    | none => none
    | some (n, r) => (parseNats fuel r).map (fun ns => n :: ns)

/-- Modelled from the spec: `ron::to_string` (external `ron` crate) —
total textual encoding of a record sequence (§4.1: encoding never fails
for well-formed input). -/
def ronToString (es : List SpawnEvent) : String :=
  natsToText (eventsEnc es)

/-- Modelled from the spec: `ron::from_str` (external `ron` crate) —
decode text to a record sequence, `none` on any text that is not a valid
encoding (§4.1). -/
def ronFromStr (s : String) : Option (List SpawnEvent) :=
  (parseNats s.data.length s.data).bind decodeNats

/-! ## Hierarchy resolver and orchestrator -/

/-- `fn serialize_world`, record-building part: one record per tracked
object.  The parent name is emitted only when the `Parent` back-reference
resolves among the tracked, named objects and that parent's current name
differs from its kind's auto-generated default name
(`spawn_tracker.get_default_name() != name.as_str()`); the transform
defaults to the identity when the object carries none. -/
def serializeRecords (get_default_name : SceneObjectKind → String)
    (objs : List TrackedObject) : List SpawnEvent :=
  objs.map (fun o =>
    let parent :=
      (o.parent.bind (fun p => queryGet objs p)).bind
        (fun po => if get_default_name po.object ≠ po.name then some po.name else none)
    { object := o.object
      transform := o.transform.getD default
      name := some o.name
      parent := parent })

/-- `fn serialize_world`: resolve the hierarchy and encode the records.
(`ron::to_string(&objects).expect(..)` — the encoder is total, so the
`.expect` cannot fire and the function is modelled as returning the text
directly.) -/
def serialize_world (get_default_name : SceneObjectKind → String)
    (objs : List TrackedObject) : String :=
  ronToString (serializeRecords get_default_name objs)

/-- `fn deserialize_world`:
`ron::from_str(serialized_world).expect("Failed to deserialize world")` —
a decode failure panics the process with that message. -/
def deserialize_world (serialized_world : String) : PanicOr (List SpawnEvent) :=
  match ronFromStr serialized_world with
  | some events => .ok events
  | none => .panicked "Failed to deserialize world"

/-- `SaveRequest` event: the requested logical save name. -/
structure SaveRequest where
  filename : String
deriving DecidableEq, Repr

/-- `LoadRequest` event: the logical name to load. -/
structure LoadRequest where
  filename : String
deriving DecidableEq, Repr

/-- The structured log reports emitted by the two systems (`error!` /
`info!` calls), by message template. -/
inductive Report where
  | saveFailedInvalidPath (scene : String)
  | saveFailedTooManySaves (scene : String)
  | saveFailedIo (scene : String)
  | saveSucceeded (scene : String) (path : String)
  | loadFailed (filename : String)
  | loadSucceeded (filename : String) (path : String)
deriving DecidableEq, Repr

/-- An outward-visible action of the orchestrator, in emission order:
a file write (`fs::write`), a recursive despawn command, an outgoing
`SpawnEvent`, or a log report. -/
inductive Effect where
  | writeFile (path : String) (contents : String)
  | despawn (entity : Nat)
  | spawn (event : SpawnEvent)
  | report (r : Report)
deriving DecidableEq, Repr

/-- The entity id despawned by an effect, when it is a despawn. -/
def Effect.despawnedEntity : Effect → Option Nat
  | .despawn n => some n
  | _ => none

/-- The spawn request carried by an effect, when it is a spawn. -/
def Effect.spawnedEvent : Effect → Option SpawnEvent
  | .spawn e => some e
  | _ => none

/-- `Path::new("assets").join("scenes").join(format!("{filename}.scn.ron"))`. -/
def scenePath (filename : String) : String :=
  "assets/scenes/" ++ filename ++ ".scn.ron"

/-- The candidate save names probed, in order:
`iter::once(scene).chain((1..).map(|n| format!("{scene}-{n}")))`, cut to
the first 10 by the `.take(10)` downstream. -/
def candidateNames (scene : String) : List String :=
  scene :: (List.range 9).map (fun n => scene ++ "-" ++ toString (n + 1))

/-- The candidate file paths probed, in order. -/
def candidatePaths (scene : String) : List String :=
  (candidateNames scene).map scenePath

/-- `fn save_world`, for one `SaveRequest`.  The filesystem is passed in:
`try_exists p` models `fs::try_exists(p).ok()` (`none` when existence
cannot be tested), `write_ok p` models whether `fs::write(p, ..)`
succeeds.  Mirrors the source exactly: probe the first 10 candidates,
drop untestable ones, fail with "Invalid path" when none is testable,
write to the first candidate that does not exist, fail with "too many
saves" when all testable candidates exist.  Note the success report is
emitted unconditionally after the write attempt, exactly as in the
source (`fs::write(..).unwrap_or_else(|e| error!(..)); info!(..)`). -/
def save_world (try_exists : String → Option Bool) (write_ok : String → Bool)
    (get_default_name : SceneObjectKind → String) (objs : List TrackedObject)
    (save : SaveRequest) : List Effect :=
  let scene := save.filename
  let valid_candidates : List (String × Bool) :=
    (candidatePaths scene).filterMap
      (fun path => (try_exists path).map (fun exists_ => (path, exists_)))
  if valid_candidates.isEmpty then
    [.report (.saveFailedInvalidPath scene)]
  else
    match (valid_candidates.filterMap
        (fun pe => if pe.2 then none else some pe.1)).head? with
    | some path =>
      let serialized_world := serialize_world get_default_name objs
      .writeFile path serialized_world ::
        ((if write_ok path then [] else [.report (.saveFailedIo scene)]) ++
         [.report (.saveSucceeded scene path)])
    | none => [.report (.saveFailedTooManySaves scene)]

/-- `fn load_world`, for one `LoadRequest`.  `read_to_string p` models
`fs::read_to_string(p).ok()` (`none` on any read error).  On a successful
read the text is decoded (which panics on malformed data, via
`deserialize_world`); then every currently tracked entity is despawned
recursively, then one spawn request per decoded record is sent in decoded
order, then the success report is logged.  On a read error only the
failure report is logged. -/
def load_world (read_to_string : String → Option String)
    (tracked_entities : List Nat) (load : LoadRequest) : PanicOr (List Effect) :=
  let path := scenePath load.filename
  match read_to_string path with
  | some serialized_world =>
    match deserialize_world serialized_world with
    | .panicked msg => .panicked msg
    | .ok spawn_events =>
      .ok ((tracked_entities.map Effect.despawn) ++
           (spawn_events.map Effect.spawn) ++
           [.report (.loadSucceeded load.filename path)])
  | none => .ok [.report (.loadFailed load.filename)]

/-- One step up the parent chain among tracked objects (an untracked or
absent parent ends the chain). -/
def parentStep (objs : List TrackedObject) : Option Nat → Option Nat
  | none => none
  | some e => (queryGet objs e).bind (fun o => o.parent)

/-- The tracked objects form a forest: from any object, walking parents
for as many steps as there are objects falls off the chain (no cycles
among tracked objects). -/
def isForest (objs : List TrackedObject) : Prop :=
  ∀ o ∈ objs, (parentStep objs)^[objs.length] (some o.entity) = none

instance (objs : List TrackedObject) : Decidable (isForest objs) := by
  unfold isForest
  infer_instance

/-- A directory state in which exactly the files in `l` exist and every
path is testable (used to instantiate the allocator scenarios). -/
def existsIn (l : List String) : String → Option Bool :=
  fun p => some (decide (p ∈ l))

/-- Concrete scene used by the witnesses: a parentless `"Table"` and a
`"Lamp"` parented to it (spec §8 Scenario A). -/
def tableObj : TrackedObject :=
  { entity := 1, object := 0, name := "Table", parent := none, transform := none }

/-- The `"Lamp"` object of the witness scene, translated by `(0, 1, 0)`. -/
def lampObj : TrackedObject :=
  { entity := 2, object := 1, name := "Lamp", parent := some 1,
    transform := some { translation := (0, 1, 0), rotation := (0, 0, 0, 1),
                        scale := (1, 1, 1) } }

/-- The witness scene. -/
def witnessScene : List TrackedObject := [tableObj, lampObj]

/-- A default-name policy for the witnesses under which no scene object is
default-named. -/
def witnessDefaults : SceneObjectKind → String := fun _ => "Unnamed"

/-! ## Codec round-trip lemmas -/

theorem readNat_enc (n : Nat) (r : List Nat) : readNat (n :: r) = some (n, r) := rfl

theorem readInt_enc (i : Int) (r : List Nat) : readInt (intEnc i ++ r) = some (i, r) := by
  cases i <;> rfl

theorem readChars_enc (cs : List Char) (r : List Nat) :
    readChars cs.length (cs.map Char.toNat ++ r) = some (cs, r) := by
  induction cs with
  | nil => rfl
  | cons c cs ih =>
    simp only [List.length_cons, List.map_cons, List.cons_append, readChars,
      List.append_eq, ih, Option.map_some', Char.ofNat_toNat]

theorem readStr_enc (s : String) (r : List Nat) : readStr (strEnc s ++ r) = some (s, r) := by
  show readStr (s.data.length :: (s.data.map Char.toNat ++ r)) = some (s, r)
  simp only [readStr, readNat_enc, readChars_enc, Option.bind_eq_bind, Option.some_bind]
  rfl

theorem readOptStr_enc (o : Option String) (r : List Nat) :
    readOptStr (optStrEnc o ++ r) = some (o, r) := by
  cases o with
  | none => rfl
  | some s =>
    show readOptStr (1 :: (strEnc s ++ r)) = some (some s, r)
    simp only [readOptStr, readStr_enc, Option.map_some']

theorem readTransform_enc (t : Transform) (r : List Nat) :
    readTransform (transformEnc t ++ r) = some (t, r) := by
  obtain ⟨⟨t1, t2, t3⟩, ⟨r1, r2, r3, r4⟩, ⟨s1, s2, s3⟩⟩ := t
  simp only [transformEnc, List.append_assoc, readTransform, readInt3, readInt4,
    readInt_enc, Option.bind_eq_bind, Option.some_bind, Option.pure_def]

theorem readEvent_enc (e : SpawnEvent) (r : List Nat) :
    readEvent (eventEnc e ++ r) = some (e, r) := by
  obtain ⟨k, t, nm, pr⟩ := e
  show readEvent (k :: (transformEnc t ++ optStrEnc nm ++ optStrEnc pr ++ r))
      = some (⟨k, t, nm, pr⟩, r)
  simp only [readEvent, readNat_enc, List.append_assoc, readTransform_enc,
    readOptStr_enc, Option.bind_eq_bind, Option.some_bind, Option.pure_def]

theorem readEvents_enc (es : List SpawnEvent) (r : List Nat) :
    readEvents es.length (eventsEncAux es ++ r) = some (es, r) := by
  induction es generalizing r with
  | nil => rfl
  | cons e es ih =>
    simp only [List.length_cons, eventsEncAux, List.append_assoc, readEvents,
      readEvent_enc, ih, Option.bind_eq_bind, Option.some_bind, Option.pure_def]

theorem decodeNats_enc (es : List SpawnEvent) : decodeNats (eventsEnc es) = some es := by
  have h := readEvents_enc es []
  rw [List.append_nil] at h
  simp only [eventsEnc, decodeNats, readNat_enc, h, Option.bind_eq_bind,
    Option.some_bind, Option.pure_def]

theorem natsToText_data (n : Nat) (ns : List Nat) :
    (natsToText (n :: ns)).data
      = List.replicate n 'I' ++ ';' :: (natsToText ns).data := by
  show (natToTally n ++ natsToText ns).data = _
  rw [String.data_append]
  show (List.replicate n 'I' ++ [';']) ++ (natsToText ns).data = _
  rw [List.append_assoc]
  rfl

theorem parseTally_enc (n : Nat) (rest : List Char) :
    parseTally (List.replicate n 'I' ++ ';' :: rest) = some (n, rest) := by
  induction n with
  | zero => rfl
  | succ n ih => simp [List.replicate_succ, parseTally, ih]

theorem parseNats_enc (ns : List Nat) :
    ∀ fuel, (natsToText ns).data.length ≤ fuel →
      parseNats fuel (natsToText ns).data = some ns := by
  induction ns with
  | nil => intro fuel _; cases fuel <;> rfl
  | cons n ns ih =>
    intro fuel hfuel
    rw [natsToText_data] at hfuel ⊢
    have hlen : (natsToText ns).data.length + n + 1 ≤ fuel := by
      simp only [List.length_append, List.length_replicate, List.length_cons] at hfuel
      omega
    obtain ⟨f, rfl⟩ : ∃ f, fuel = f + 1 := ⟨fuel - 1, by omega⟩
    have hrest : (natsToText ns).data.length ≤ f := by omega
    cases n with
    | zero =>
      show parseNats (f + 1) (List.replicate 0 'I' ++ ';' :: (natsToText ns).data)
          = some (0 :: ns)
      rw [List.replicate, List.nil_append]
      simp only [parseNats]
      have ht : parseTally (';' :: (natsToText ns).data)
          = some (0, (natsToText ns).data) := by
        have h0 := parseTally_enc 0 (natsToText ns).data
        simpa using h0
      rw [ht]
      simp [ih f hrest]
    | succ m =>
      rw [List.replicate_succ, List.cons_append]
      simp only [parseNats]
      have ht : parseTally ('I' :: (List.replicate m 'I' ++ ';' :: (natsToText ns).data))
          = some (m + 1, (natsToText ns).data) := by
        rw [← List.cons_append, ← List.replicate_succ]
        exact parseTally_enc (m + 1) (natsToText ns).data
      rw [ht]
      simp [ih f hrest]

theorem ronFromStr_enc (es : List SpawnEvent) :
    ronFromStr (ronToString es) = some es := by
  unfold ronFromStr ronToString
  rw [parseNats_enc _ _ (le_refl _)]
  exact decodeNats_enc es

/-! ## String and path facts -/

theorem string_data_inj {s t : String} (h : s.data = t.data) : s = t := by
  cases s
  cases t
  exact congrArg String.mk h

theorem string_append_assoc (a b c : String) : a ++ b ++ c = a ++ (b ++ c) := by
  apply string_data_inj
  simp [String.data_append, List.append_assoc]

theorem string_append_right_inj (s : String) {t u : String} : s ++ t = s ++ u ↔ t = u := by
  constructor
  · intro h
    have h2 : s.data ++ t.data = s.data ++ u.data := by
      have := congrArg String.data h
      simpa [String.data_append] using this
    exact string_data_inj (List.append_cancel_left h2)
  · intro h
    rw [h]

theorem string_append_eq_self_iff (s t : String) : s ++ t = s ↔ t = "" := by
  constructor
  · intro h
    have h2 : s.data ++ t.data = s.data ++ [] := by
      have := congrArg String.data h
      simpa [String.data_append] using this
    have h3 : t.data = [] := List.append_cancel_left h2
    exact string_data_inj (by simpa using h3)
  · intro h
    rw [h]
    apply string_data_inj
    simp [String.data_append]

theorem scenePath_inj {a b : String} : scenePath a = scenePath b ↔ a = b := by
  constructor
  · intro h
    unfold scenePath at h
    have h2 : ("assets/scenes/" ++ a).data ++ ".scn.ron".data
        = ("assets/scenes/" ++ b).data ++ ".scn.ron".data := by
      have := congrArg String.data h
      simpa [String.data_append] using this
    have h3 := string_data_inj (List.append_cancel_right h2)
    exact (string_append_right_inj "assets/scenes/").1 h3
  · intro h
    rw [h]

theorem candidateNames_explicit (scene : String) :
    candidateNames scene =
      [scene, scene ++ "-1", scene ++ "-2", scene ++ "-3", scene ++ "-4",
       scene ++ "-5", scene ++ "-6", scene ++ "-7", scene ++ "-8", scene ++ "-9"] := by
  unfold candidateNames
  have hr : List.range 9 = [0, 1, 2, 3, 4, 5, 6, 7, 8] := rfl
  rw [hr]
  simp only [List.map_cons, List.map_nil, string_append_assoc]
  rfl

theorem candidatePaths_explicit (scene : String) :
    candidatePaths scene =
      [scenePath scene, scenePath (scene ++ "-1"), scenePath (scene ++ "-2"),
       scenePath (scene ++ "-3"), scenePath (scene ++ "-4"), scenePath (scene ++ "-5"),
       scenePath (scene ++ "-6"), scenePath (scene ++ "-7"), scenePath (scene ++ "-8"),
       scenePath (scene ++ "-9")] := by
  unfold candidatePaths
  rw [candidateNames_explicit]
  rfl

/-! ## Allocator characterization -/

theorem filterMap_some_comp {α β : Type} (g : α → β) :
    ∀ l : List α, l.filterMap (fun a => some (g a)) = l.map g := by
  intro l
  induction l with
  | nil => rfl
  | cons a l ih => simp [List.filterMap_cons, ih]

theorem filterMap_guard {α : Type} (q : α → Bool) :
    ∀ l : List α, l.filterMap (fun a => if q a then none else some a)
      = l.filter (fun a => !q a) := by
  intro l
  induction l with
  | nil => rfl
  | cons a l ih => cases hq : q a <;> simp [List.filterMap_cons, List.filter_cons, hq, ih]

/-- With every candidate testable (probe `some (ex p)`), `save_world`
writes to the first candidate reported nonexistent, and fails with the
collision report when every candidate exists. -/
theorem save_world_total_probe (ex : String → Bool) (w : String → Bool)
    (dn : SceneObjectKind → String) (objs : List TrackedObject) (base : String) :
    save_world (fun p => some (ex p)) w dn objs ⟨base⟩
      = match ((candidatePaths base).filter (fun p => !ex p)).head? with
        | some path =>
          .writeFile path (serialize_world dn objs) ::
            ((if w path then [] else [.report (.saveFailedIo base)]) ++
             [.report (.saveSucceeded base path)])
        | none => [.report (.saveFailedTooManySaves base)] := by
  unfold save_world
  simp only [Option.map_some']
  rw [filterMap_some_comp (fun p => (p, ex p))]
  have hne : ((candidatePaths base).map (fun p => (p, ex p))).isEmpty = false := by
    rw [candidatePaths_explicit]
    rfl
  rw [hne]
  simp only [Bool.false_eq_true, if_false, List.filterMap_map]
  have hc : ((fun pe : String × Bool => if pe.2 then none else some pe.1) ∘
      (fun p => (p, ex p))) = fun p => if ex p then none else some p := rfl
  rw [hc, filterMap_guard ex (candidatePaths base)]

/-- Scenario: exactly the files for `base`, `base-1`, …, `base-8` exist.
The first nonexistent candidate is `base-9`. -/
theorem filter_scenario_a (base : String) :
    ((candidatePaths base).filter
        (fun p => !(decide (p ∈ (candidatePaths base).take 9)))).head?
      = some (scenePath (base ++ "-9")) := by
  rw [candidatePaths_explicit]
  have d9 : decide (scenePath (base ++ "-9") ∈
      ([scenePath base, scenePath (base ++ "-1"), scenePath (base ++ "-2"),
        scenePath (base ++ "-3"), scenePath (base ++ "-4"), scenePath (base ++ "-5"),
        scenePath (base ++ "-6"), scenePath (base ++ "-7"), scenePath (base ++ "-8"),
        scenePath (base ++ "-9")].take 9)) = false := by
    apply decide_eq_false
    intro hmem
    simp only [List.take, List.mem_cons, List.not_mem_nil, or_false, scenePath_inj,
      string_append_right_inj, string_append_eq_self_iff] at hmem
    revert hmem
    decide
  have hne : ∀ t : String, t ≠ "" → scenePath (base ++ t) ≠ scenePath base :=
    fun t ht h => ht ((string_append_eq_self_iff base t).1 (scenePath_inj.1 h))
  have hneq : ∀ t u : String, t ≠ u → scenePath (base ++ t) ≠ scenePath (base ++ u) :=
    fun t u htu h => htu ((string_append_right_inj base).1 (scenePath_inj.1 h))
  simp only [List.filter_cons, d9, List.take]
  simp only [List.mem_cons, List.not_mem_nil, or_false, decide_not, List.mem_singleton]
  have hmem9 : ∀ k : List String, scenePath (base ++ "-9") ∈ scenePath (base ++ "-9") :: k := by
    intro k
    exact List.mem_cons_self _ _
  simp [hne "-9" (by decide), hneq "-9" "-1" (by decide), hneq "-9" "-2" (by decide),
    hneq "-9" "-3" (by decide), hneq "-9" "-4" (by decide), hneq "-9" "-5" (by decide),
    hneq "-9" "-6" (by decide), hneq "-9" "-7" (by decide), hneq "-9" "-8" (by decide)]

/-- Scenario: every candidate file exists.  No candidate is free. -/
theorem filter_scenario_b (base : String) :
    ((candidatePaths base).filter
        (fun p => !(decide (p ∈ candidatePaths base)))).head? = none := by
  have hnil : (candidatePaths base).filter
      (fun p => !(decide (p ∈ candidatePaths base))) = [] := by
    rw [List.filter_eq_nil_iff]
    intro p hp
    simp [hp]
  rw [hnil]
  rfl

/-- The path `save_world` writes to always probed as nonexistent. -/
theorem writeFile_mem_try_exists {try_exists : String → Option Bool}
    {w : String → Bool} {dn : SceneObjectKind → String} {objs : List TrackedObject}
    {req : SaveRequest} {p c : String}
    (h : Effect.writeFile p c ∈ save_world try_exists w dn objs req) :
    try_exists p = some false := by
  simp only [save_world] at h
  split at h
  · simp at h
  · split at h
    next path hpath =>
      have hpc : p = path := by
        rcases List.mem_cons.1 h with h1 | h2
        · simp only [Effect.writeFile.injEq] at h1
          exact h1.1
        · exfalso
          rcases List.mem_append.1 h2 with h3 | h3
          · cases hw : w path <;> rw [hw] at h3 <;> simp at h3
          · simp at h3
      subst hpc
      have hmem := List.mem_of_mem_head? hpath
      rcases List.mem_filterMap.1 hmem with ⟨pe, hpe, hsel⟩
      rcases List.mem_filterMap.1 hpe with ⟨q, _, hq⟩
      obtain ⟨b, hb, hqb⟩ := Option.map_eq_some'.1 hq
      subst hqb
      cases b with
      | true => simp at hsel
      | false =>
        have h1 : q = p := by simpa using hsel
        rw [← h1]
        exact hb
    next hpath =>
      simp at h

/-- When no candidate can be tested for existence, the save fails with the
invalid-path report and writes nothing. -/
theorem save_world_all_untestable {try_exists : String → Option Bool}
    {w : String → Bool} {dn : SceneObjectKind → String} {objs : List TrackedObject}
    {base : String} (h : ∀ p ∈ candidatePaths base, try_exists p = none) :
    save_world try_exists w dn objs ⟨base⟩ = [.report (.saveFailedInvalidPath base)] := by
  simp only [save_world]
  have hvc : (candidatePaths base).filterMap
      (fun path => (try_exists path).map (fun e => (path, e))) = [] := by
    rw [List.filterMap_eq_nil_iff]
    intro p hp
    simp [h p hp]
  rw [hvc]
  rfl

/-- Demonstration that an untestable candidate is skipped rather than
taken or escalated: with the first candidate untestable and the rest
nonexistent, the save proceeds to `base-1`. -/
theorem save_world_skip_demo (base : String) (dn : SceneObjectKind → String)
    (objs : List TrackedObject) :
    save_world (fun p => if p = scenePath base then none else some false)
        (fun _ => true) dn objs ⟨base⟩
      = [.writeFile (scenePath (base ++ "-1")) (serialize_world dn objs),
         .report (.saveSucceeded base (scenePath (base ++ "-1")))] := by
  have hne : ∀ t : String, t ≠ "" → (scenePath (base ++ t) = scenePath base) = False :=
    fun t ht => eq_false
      (fun h => ht ((string_append_eq_self_iff base t).1 (scenePath_inj.1 h)))
  simp only [save_world, candidatePaths_explicit, List.filterMap_cons,
    hne "-1" (by decide), hne "-2" (by decide), hne "-3" (by decide),
    hne "-4" (by decide), hne "-5" (by decide), hne "-6" (by decide),
    hne "-7" (by decide), hne "-8" (by decide), hne "-9" (by decide),
    if_true, if_false, Option.map_some', Option.map_none', List.filterMap_nil]
  simp

/-! ## Load behavior -/

theorem load_world_read_failure {read_to_string : String → Option String}
    {tracked : List Nat} {req : LoadRequest}
    (h : read_to_string (scenePath req.filename) = none) :
    load_world read_to_string tracked req = .ok [.report (.loadFailed req.filename)] := by
  simp only [load_world, h]

theorem load_world_decode_failure {read_to_string : String → Option String}
    {tracked : List Nat} {req : LoadRequest} {content : String}
    (hr : read_to_string (scenePath req.filename) = some content)
    (hd : ronFromStr content = none) :
    load_world read_to_string tracked req = .panicked "Failed to deserialize world" := by
  simp only [load_world, hr, deserialize_world, hd]

theorem load_world_success {read_to_string : String → Option String}
    {tracked : List Nat} {req : LoadRequest} {content : String}
    {events : List SpawnEvent}
    (hr : read_to_string (scenePath req.filename) = some content)
    (hd : ronFromStr content = some events) :
    load_world read_to_string tracked req
      = .ok (tracked.map Effect.despawn ++ events.map Effect.spawn ++
             [.report (.loadSucceeded req.filename (scenePath req.filename))]) := by
  simp only [load_world, hr, deserialize_world, hd]

/-! ## Claims -/

/-- C1, counterexample: on the empty string — not a valid encoded
sequence — `deserialize_world` does not return a typed
`MalformedDataError`: it panics (crashes the process) with
"Failed to deserialize world". -/
theorem c1_claim_false :
    deserialize_world "" = PanicOr.panicked "Failed to deserialize world" := by
  decide

/-- C1, amended: for every input text that is not a valid encoded
sequence, `deserialize_world` panics the process with
"Failed to deserialize world" instead of returning a typed error; on
valid encodings it returns the decoded records. -/
theorem c1_malformed_input (s : String) :
    (ronFromStr s = none →
      deserialize_world s = .panicked "Failed to deserialize world")
  ∧ (∀ es, ronFromStr s = some es → deserialize_world s = .ok es) := by
  constructor
  · intro h
    simp only [deserialize_world, h]
  · intro es h
    simp only [deserialize_world, h]

/-- C1 witness: the empty string is malformed and panics the decoder. -/
theorem c1_malformed_input_witness :
    ronFromStr "" = none ∧
      deserialize_world "" = .panicked "Failed to deserialize world" :=
  ⟨by decide, (c1_malformed_input "").1 (by decide)⟩

/-- C2: the path `save_world` writes to is always one whose existence
probe returned `false` — never a pre-existing file. -/
theorem c2_no_overwrite (try_exists : String → Option Bool) (w : String → Bool)
    (dn : SceneObjectKind → String) (objs : List TrackedObject)
    (req : SaveRequest) (p c : String)
    (h : Effect.writeFile p c ∈ save_world try_exists w dn objs req) :
    try_exists p = some false :=
  writeFile_mem_try_exists h

/-- C2 witness: a concrete save in an empty directory writes to the probed
path, whose probe returned `false`. -/
theorem c2_no_overwrite_witness :
    Effect.writeFile (scenePath "room") (serialize_world witnessDefaults [])
        ∈ save_world (fun _ => some false) (fun _ => true) witnessDefaults [] ⟨"room"⟩
      ∧ (fun _ : String => (some false : Option Bool)) (scenePath "room") = some false :=
  ⟨by decide,
   c2_no_overwrite (fun _ => some false) (fun _ => true) witnessDefaults []
     ⟨"room"⟩ (scenePath "room") (serialize_world witnessDefaults []) (by decide)⟩

/-- C3: the allocator probes exactly the ten candidates `base`, `base-1`,
…, `base-9` in increasing numeric order and writes to the first whose
file does not exist; with `base` … `base-8` existing it picks `base-9`,
and with all ten existing it fails with the too-many-saves report. -/
theorem c3_allocator_boundary (base : String) (dn : SceneObjectKind → String)
    (objs : List TrackedObject) :
    candidateNames base
        = [base, base ++ "-1", base ++ "-2", base ++ "-3", base ++ "-4",
           base ++ "-5", base ++ "-6", base ++ "-7", base ++ "-8", base ++ "-9"]
  ∧ (∀ (ex : String → Bool) (path : String),
      ((candidatePaths base).filter (fun p => !ex p)).head? = some path →
      save_world (fun p => some (ex p)) (fun _ => true) dn objs ⟨base⟩
        = [.writeFile path (serialize_world dn objs),
           .report (.saveSucceeded base path)])
  ∧ (∀ ex : String → Bool, (∀ p ∈ candidatePaths base, ex p = true) →
      save_world (fun p => some (ex p)) (fun _ => true) dn objs ⟨base⟩
        = [.report (.saveFailedTooManySaves base)])
  ∧ save_world (existsIn ((candidatePaths base).take 9)) (fun _ => true) dn objs ⟨base⟩
      = [.writeFile (scenePath (base ++ "-9")) (serialize_world dn objs),
         .report (.saveSucceeded base (scenePath (base ++ "-9")))]
  ∧ save_world (existsIn (candidatePaths base)) (fun _ => true) dn objs ⟨base⟩
      = [.report (.saveFailedTooManySaves base)] := by
  have part2 : ∀ (ex : String → Bool) (path : String),
      ((candidatePaths base).filter (fun p => !ex p)).head? = some path →
      save_world (fun p => some (ex p)) (fun _ => true) dn objs ⟨base⟩
        = [.writeFile path (serialize_world dn objs),
           .report (.saveSucceeded base path)] := by
    intro ex path h
    rw [save_world_total_probe, h]
    rfl
  have part3 : ∀ ex : String → Bool, (∀ p ∈ candidatePaths base, ex p = true) →
      save_world (fun p => some (ex p)) (fun _ => true) dn objs ⟨base⟩
        = [.report (.saveFailedTooManySaves base)] := by
    intro ex hall
    rw [save_world_total_probe]
    have hnil : (candidatePaths base).filter (fun p => !ex p) = [] := by
      rw [List.filter_eq_nil_iff]
      intro p hp
      simp [hall p hp]
    rw [hnil]
    rfl
  exact ⟨candidateNames_explicit base, part2, part3,
    part2 _ _ (filter_scenario_a base),
    part3 _ (fun p hp => decide_eq_true hp)⟩

/-- C3 witness: with an empty directory every probe is `false`, so the
very first candidate `room` is chosen. -/
theorem c3_allocator_boundary_witness :
    ((candidatePaths "room").filter (fun p => !(fun _ : String => false) p)).head?
        = some (scenePath "room")
      ∧ save_world (fun p => some ((fun _ : String => false) p)) (fun _ => true)
          witnessDefaults [] ⟨"room"⟩
        = [.writeFile (scenePath "room") (serialize_world witnessDefaults []),
           .report (.saveSucceeded "room" (scenePath "room"))] :=
  ⟨by decide,
   (c3_allocator_boundary "room" witnessDefaults []).2.1 (fun _ => false)
     (scenePath "room") (by decide)⟩

/-- C4, counterexample: a load whose read succeeds but whose decode fails
does not report the failure — the process panics inside
`deserialize_world` (no report, no despawn, no spawn is emitted). -/
theorem c4_claim_false :
    load_world (fun _ => some (String.mk ['x'])) [7] ⟨"room"⟩
        = PanicOr.panicked "Failed to deserialize world"
      ∧ load_world (fun _ => some (String.mk ['x'])) [7] ⟨"room"⟩
          ≠ PanicOr.ok [Effect.report (Report.loadFailed "room")] := by
  constructor
  · decide
  · decide

/-- C4, amended: a load whose read fails reports the failure and emits no
despawn and no spawn (the scene is untouched); a load whose decode fails
panics the process with "Failed to deserialize world" instead of
reporting (likewise emitting no despawn and no spawn). -/
theorem c4_failed_load_atomicity (read_to_string : String → Option String)
    (tracked : List Nat) (req : LoadRequest) :
    (read_to_string (scenePath req.filename) = none →
      load_world read_to_string tracked req = .ok [.report (.loadFailed req.filename)])
  ∧ (∀ content, read_to_string (scenePath req.filename) = some content →
      ronFromStr content = none →
      load_world read_to_string tracked req
        = .panicked "Failed to deserialize world") :=
  ⟨fun h => load_world_read_failure h,
   fun _ hr hd => load_world_decode_failure hr hd⟩

/-- C4 witness: a missing file yields only the failure report. -/
theorem c4_failed_load_atomicity_witness :
    (fun _ : String => (none : Option String)) (scenePath "room") = none
      ∧ load_world (fun _ => none) [7] ⟨"room"⟩
          = .ok [.report (.loadFailed "room")] :=
  ⟨rfl, (c4_failed_load_atomicity (fun _ => none) [7] ⟨"room"⟩).1 rfl⟩

/-- C7: on a load whose read and decode both succeed, every despawn of a
tracked entity precedes every spawn, the despawns are exactly the tracked
entities, and the spawns are exactly the decoded records in decoded
order. -/
theorem c7_despawn_before_spawn (read_to_string : String → Option String)
    (tracked : List Nat) (req : LoadRequest) (content : String)
    (events : List SpawnEvent)
    (hr : read_to_string (scenePath req.filename) = some content)
    (hd : ronFromStr content = some events) :
    ∃ effects, load_world read_to_string tracked req = .ok effects
      ∧ effects.filterMap Effect.despawnedEntity = tracked
      ∧ effects.filterMap Effect.spawnedEvent = events
      ∧ ∀ (i j di : Nat) (sj : SpawnEvent),
          effects[i]? = some (Effect.despawn di) →
          effects[j]? = some (Effect.spawn sj) → i < j := by
  refine ⟨tracked.map Effect.despawn ++ events.map Effect.spawn ++
      [.report (.loadSucceeded req.filename (scenePath req.filename))],
    load_world_success hr hd, ?_, ?_, ?_⟩
  · simp only [List.filterMap_append, List.filterMap_map]
    have h1 : ∀ l : List Nat,
        l.filterMap (Effect.despawnedEntity ∘ Effect.despawn) = l := by
      intro l
      induction l with
      | nil => rfl
      | cons a l ih => simp [List.filterMap_cons, ih, Effect.despawnedEntity]
    have h2 : ∀ l : List SpawnEvent,
        l.filterMap (Effect.despawnedEntity ∘ Effect.spawn) = [] := by
      intro l
      induction l with
      | nil => rfl
      | cons a l ih => simp [List.filterMap_cons, ih, Effect.despawnedEntity]
    simp [h1, h2, List.filterMap_cons, Effect.despawnedEntity]
  · simp only [List.filterMap_append, List.filterMap_map]
    have h1 : ∀ l : List Nat,
        l.filterMap (Effect.spawnedEvent ∘ Effect.despawn) = [] := by
      intro l
      induction l with
      | nil => rfl
      | cons a l ih => simp [List.filterMap_cons, ih, Effect.spawnedEvent]
    have h2 : ∀ l : List SpawnEvent,
        l.filterMap (Effect.spawnedEvent ∘ Effect.spawn) = l := by
      intro l
      induction l with
      | nil => rfl
      | cons a l ih => simp [List.filterMap_cons, ih, Effect.spawnedEvent]
    simp [h1, h2, List.filterMap_cons, Effect.spawnedEvent]
  · intro i j di sj hi hj
    rw [List.append_assoc] at hi hj
    have hilt : i < (tracked.map Effect.despawn).length := by
      by_contra hge
      push_neg at hge
      rw [List.getElem?_append_right hge] at hi
      rcases lt_or_ge (i - (tracked.map Effect.despawn).length)
          (events.map Effect.spawn).length with hlt | hge2
      · rw [List.getElem?_append_left hlt, List.getElem?_map] at hi
        rcases Option.map_eq_some'.1 hi with ⟨e, _, he⟩
        exact Effect.noConfusion he
      · rw [List.getElem?_append_right hge2] at hi
        rcases Nat.lt_or_ge (i - (tracked.map Effect.despawn).length -
            (events.map Effect.spawn).length) 1 with h1 | h1
        · have h0 : i - (tracked.map Effect.despawn).length -
              (events.map Effect.spawn).length = 0 := by omega
          rw [h0] at hi
          simp at hi
        · rw [List.getElem?_eq_none (by simpa using h1)] at hi
          exact Option.noConfusion hi
    have hjge : (tracked.map Effect.despawn).length ≤ j := by
      by_contra hlt
      push_neg at hlt
      rw [List.getElem?_append_left hlt, List.getElem?_map] at hj
      rcases Option.map_eq_some'.1 hj with ⟨e, _, he⟩
      exact Effect.noConfusion he
    omega

/-- C7 witness: a one-record file over a one-entity scene. -/
theorem c7_despawn_before_spawn_witness :
    ∃ effects,
      load_world
          (fun _ => some (ronToString
            [{ object := 0, transform := default, name := none, parent := none }]))
          [3] ⟨"room"⟩ = .ok effects
      ∧ effects.filterMap Effect.despawnedEntity = [3]
      ∧ effects.filterMap Effect.spawnedEvent
          = [{ object := 0, transform := default, name := none, parent := none }]
      ∧ ∀ (i j di : Nat) (sj : SpawnEvent),
          effects[i]? = some (Effect.despawn di) →
          effects[j]? = some (Effect.spawn sj) → i < j :=
  c7_despawn_before_spawn
    (fun _ => some (ronToString
      [{ object := 0, transform := default, name := none, parent := none }]))
    [3] ⟨"room"⟩ _
    [{ object := 0, transform := default, name := none, parent := none }]
    rfl
    (ronFromStr_enc [{ object := 0, transform := default, name := none, parent := none }])

/-- C8, code bug: when the file write fails, `save_world` logs the
failure but then still logs "Successfully saved scene" — the success
report is not emitted only on success.  Evaluation at a failing write. -/
theorem c8_success_report_bug :
    save_world (fun _ => some false) (fun _ => false) witnessDefaults [] ⟨"room"⟩
      = [.writeFile (scenePath "room") (serialize_world witnessDefaults []),
         .report (.saveFailedIo "room"),
         .report (.saveSucceeded "room" (scenePath "room"))] := by
  decide

/-- C9: a candidate whose existence cannot be tested is skipped — never
taken as the write target and never a hard failure by itself — and when
every candidate is untestable the save fails with the invalid-path report
and writes nothing. -/
theorem c9_untestable_candidates (try_exists : String → Option Bool)
    (w : String → Bool) (dn : SceneObjectKind → String)
    (objs : List TrackedObject) (base : String) :
    ((∀ p ∈ candidatePaths base, try_exists p = none) →
      save_world try_exists w dn objs ⟨base⟩
        = [.report (.saveFailedInvalidPath base)])
  ∧ (∀ p c, Effect.writeFile p c ∈ save_world try_exists w dn objs ⟨base⟩ →
      try_exists p ≠ none)
  ∧ save_world (fun p => if p = scenePath base then none else some false)
        (fun _ => true) dn objs ⟨base⟩
      = [.writeFile (scenePath (base ++ "-1")) (serialize_world dn objs),
         .report (.saveSucceeded base (scenePath (base ++ "-1")))] :=
  ⟨fun h => save_world_all_untestable h,
   fun _ _ h => by rw [writeFile_mem_try_exists h]; exact Option.some_ne_none false,
   save_world_skip_demo base dn objs⟩

/-- C9 witness: with every probe failing, the save reports an invalid
path. -/
theorem c9_untestable_candidates_witness :
    (∀ p ∈ candidatePaths "room", (fun _ : String => (none : Option Bool)) p = none)
      ∧ save_world (fun _ => none) (fun _ => true) witnessDefaults [] ⟨"room"⟩
          = [.report (.saveFailedInvalidPath "room")] :=
  ⟨fun _ _ => rfl,
   (c9_untestable_candidates (fun _ => none) (fun _ => true) witnessDefaults []
     "room").1 (fun _ _ => rfl)⟩

/-- C5: decoding the encoded output of the hierarchy resolution yields
spawn requests whose multiset of (kind, transform, name) matches the
tracked objects', and whose parent references carry exactly the original
parent's name when that parent is tracked and non-default-named, collapsing
default-named or untracked parents to no explicit parent name. -/
theorem c5_round_trip (dn : SceneObjectKind → String) (objs : List TrackedObject)
    (_hforest : isForest objs) :
    ∃ events, deserialize_world (serialize_world dn objs) = .ok events
      ∧ List.Perm (events.map (fun e => (e.object, e.transform, e.name)))
          (objs.map (fun o => (o.object, o.transform.getD default, some o.name)))
      ∧ ∀ (i : Nat) (o : TrackedObject), objs[i]? = some o →
          ∃ e, events[i]? = some e
            ∧ (∀ po, o.parent.bind (queryGet objs) = some po →
                e.parent = if dn po.object = po.name then none else some po.name)
            ∧ (o.parent.bind (queryGet objs) = none → e.parent = none) := by
  refine ⟨serializeRecords dn objs, ?_, ?_, ?_⟩
  · unfold serialize_world deserialize_world
    rw [ronFromStr_enc]
  · have hmap : (serializeRecords dn objs).map (fun e => (e.object, e.transform, e.name))
        = objs.map (fun o => (o.object, o.transform.getD default, some o.name)) := by
      unfold serializeRecords
      rw [List.map_map]
      rfl
    rw [hmap]
  · intro i o ho
    refine ⟨{ object := o.object, transform := o.transform.getD default,
              name := some o.name,
              parent := (o.parent.bind (fun p => queryGet objs p)).bind
                (fun po => if dn po.object ≠ po.name then some po.name else none) },
      ?_, ?_, ?_⟩
    · unfold serializeRecords
      rw [List.getElem?_map, ho]
      rfl
    · intro po hpo
      show ((o.parent.bind (fun p => queryGet objs p)).bind
          (fun po => if dn po.object ≠ po.name then some po.name else none))
        = if dn po.object = po.name then none else some po.name
      rw [show o.parent.bind (fun p => queryGet objs p) = some po from hpo]
      by_cases hd : dn po.object = po.name
      · simp [hd]
      · simp [hd]
    · intro hnone
      show ((o.parent.bind (fun p => queryGet objs p)).bind
          (fun po => if dn po.object ≠ po.name then some po.name else none)) = none
      rw [show o.parent.bind (fun p => queryGet objs p) = none from hnone]
      rfl

/-- C5 witness: the Table/Lamp scene round-trips. -/
theorem c5_round_trip_witness :
    isForest witnessScene
      ∧ ∃ events,
          deserialize_world (serialize_world witnessDefaults witnessScene) = .ok events
        ∧ List.Perm (events.map (fun e => (e.object, e.transform, e.name)))
            (witnessScene.map (fun o => (o.object, o.transform.getD default, some o.name)))
        ∧ ∀ (i : Nat) (o : TrackedObject), witnessScene[i]? = some o →
            ∃ e, events[i]? = some e
              ∧ (∀ po, o.parent.bind (queryGet witnessScene) = some po →
                  e.parent = if witnessDefaults po.object = po.name then none
                             else some po.name)
              ∧ (o.parent.bind (queryGet witnessScene) = none → e.parent = none) :=
  ⟨by decide, c5_round_trip witnessDefaults witnessScene (by decide)⟩

/-- C6: the resolver emits, per tracked object, one record carrying its
kind, its transform (identity when absent), its name, and a parent name
present exactly when the parent resolves among tracked objects with a name
differing from its kind's default name. -/
theorem c6_resolver (dn : SceneObjectKind → String) (objs : List TrackedObject)
    (i : Nat) (o : TrackedObject) (ho : objs[i]? = some o) :
    ∃ r, (serializeRecords dn objs)[i]? = some r
      ∧ r.object = o.object
      ∧ r.transform = o.transform.getD default
      ∧ r.name = some o.name
      ∧ ∀ pname, (r.parent = some pname ↔
          ∃ po, o.parent.bind (queryGet objs) = some po
            ∧ po.name ≠ dn po.object ∧ pname = po.name) := by
  refine ⟨{ object := o.object, transform := o.transform.getD default,
            name := some o.name,
            parent := (o.parent.bind (fun p => queryGet objs p)).bind
              (fun po => if dn po.object ≠ po.name then some po.name else none) },
    ?_, rfl, rfl, rfl, ?_⟩
  · unfold serializeRecords
    rw [List.getElem?_map, ho]
    rfl
  · intro pname
    show ((o.parent.bind (fun p => queryGet objs p)).bind
        (fun po => if dn po.object ≠ po.name then some po.name else none)) = some pname
      ↔ _
    constructor
    · intro h
      cases hq : o.parent.bind (fun p => queryGet objs p) with
      | none => rw [hq] at h; exact absurd h (by simp)
      | some po =>
        rw [hq] at h
        simp only [Option.some_bind] at h
        by_cases hd : dn po.object ≠ po.name
        · rw [if_pos hd] at h
          exact ⟨po, rfl, Ne.symm hd, (Option.some_inj.1 h).symm⟩
        · rw [if_neg hd] at h
          exact absurd h (by simp)
    · rintro ⟨po, hq, hne, rfl⟩
      rw [hq]
      simp only [Option.some_bind]
      rw [if_pos (Ne.symm hne)]

/-- C6 witness: the Lamp resolves its parent Table by name. -/
theorem c6_resolver_witness :
    witnessScene[1]? = some lampObj
      ∧ ∃ r, (serializeRecords witnessDefaults witnessScene)[1]? = some r
          ∧ r.object = lampObj.object
          ∧ r.transform = lampObj.transform.getD default
          ∧ r.name = some lampObj.name
          ∧ ∀ pname, (r.parent = some pname ↔
              ∃ po, lampObj.parent.bind (queryGet witnessScene) = some po
                ∧ po.name ≠ witnessDefaults po.object ∧ pname = po.name) :=
  ⟨by decide, c6_resolver witnessDefaults witnessScene 1 lampObj (by decide)⟩

/-- C10: every record produced by serializing the live scene carries the
name of one of the tracked objects — the absent-name case is never
produced on save. -/
theorem c10_records_always_named (dn : SceneObjectKind → String)
    (objs : List TrackedObject) :
    ∀ r ∈ serializeRecords dn objs, ∃ o ∈ objs, r.name = some o.name := by
  intro r hr
  simp only [serializeRecords] at hr
  rcases List.mem_map.1 hr with ⟨o, ho, rfl⟩
  exact ⟨o, ho, rfl⟩

/-- C10 witness: the Table's record carries its name. -/
theorem c10_records_always_named_witness :
    ({ object := 0, transform := default, name := some "Table", parent := none }
        : SpawnEvent) ∈ serializeRecords witnessDefaults witnessScene
      ∧ ∃ o ∈ witnessScene,
          ({ object := 0, transform := default, name := some "Table", parent := none }
            : SpawnEvent).name = some o.name :=
  ⟨by decide,
   c10_records_always_named witnessDefaults witnessScene _ (by decide)⟩

end Foxtrot
